import Mathlib

/-!
Verification of the `website-backend` FastAPI service (`src/backend.py`)
against its natural-language specification.

The Python program is shallowly embedded:

* SQLite tables become Lean lists of records kept in rowid (insertion)
  order; the server-assigned integer primary key of a fresh row is
  modelled as one greater than the largest id currently in use, which is
  SQLite's documented rowid-allocation rule for an
  `INTEGER PRIMARY KEY` column without `AUTOINCREMENT`
  (rowids of deleted rows may thereby be reused).
* Each HTTP handler becomes a pure function from the request payload and
  the database state to a result: an `Except` value (an
  `HTTPException` raised before `db.commit()` maps to `.error`, in
  which case the session is closed uncommitted and the state is
  unchanged), the post-state, and the list of broadcast payloads sent.
* The WebSocket `ConnectionManager` becomes a record holding the
  `active_connections` list; `send_text` on a connection either
  succeeds or raises, which we model with a `sendFails` flag on the
  connection handle.
* `await` sequencing inside an `async` handler is modelled, where a
  claim is about ordering, as an explicit list of handler steps.
-/

/-- A row of the `items` table (`class Item`, backend.py lines 32-36). -/
structure Item where
  id : Nat
  name : String
  description : String
deriving DecidableEq, Repr

/-- A row of the `users` table (`class User`, backend.py lines 38-41). -/
structure User where
  id : Nat
  name : String
deriving DecidableEq, Repr

/-- A row of the `messages` table (`class Message`, backend.py lines 43-52).
`recipient_id` is a nullable foreign key, hence `Option`; `timestamp`
(a `DateTime` defaulted to `datetime.utcnow`) is modelled as a `Nat` tick
supplied by the caller at creation time. -/
structure Message where
  id : Nat
  sender_id : Nat
  recipient_id : Option Nat
  content : String
  timestamp : Nat
deriving DecidableEq, Repr

/-- The SQLite database `regolith.db`: one list per table, rows in rowid
(insertion) order. -/
structure DB where
  items : List Item
  users : List User
  messages : List Message
deriving DecidableEq, Repr

/-- The empty database produced by `Base.metadata.create_all`. -/
def emptyDB : DB := ⟨[], [], []⟩

/-- SQLite's rowid allocation for an `INTEGER PRIMARY KEY` column without
`AUTOINCREMENT`: the new rowid is one greater than the largest rowid
currently in use (1 on an empty table). -/
def sqliteNextId (ids : List Nat) : Nat := ids.foldr max 0 + 1

/-- The error raised by a handler before commit: the code only ever raises
`HTTPException(status_code=404, detail=...)`. -/
inductive ApiError where
  | notFound (detail : String)
deriving DecidableEq, Repr

/-- Outcome of one handler call: the value returned or the exception
raised, the database state after the session is closed, and the payloads
passed to `manager.broadcast` during the call. -/
structure OpResult (α : Type) where
  result : Except ApiError α
  db : DB
  broadcasts : List String
deriving Repr

/-! ## WebSocket connection manager (backend.py lines 84-99) -/

/-- A WebSocket connection handle. `sendFails` says whether
`connection.send_text` raises on this handle (closed connection or write
error). -/
structure Conn where
  id : Nat
  sendFails : Bool
deriving DecidableEq, Repr

/-- `ConnectionManager.active_connections` (backend.py line 86). -/
structure ConnectionManager where
  active_connections : List Conn
deriving DecidableEq, Repr

/-- `ConnectionManager.connect` (lines 88-90): accept, then append to
`active_connections`. -/
def ConnectionManager.connect (m : ConnectionManager) (ws : Conn) :
    ConnectionManager :=
  ⟨m.active_connections ++ [ws]⟩

/-- `ConnectionManager.disconnect` (lines 92-93):
`self.active_connections.remove(websocket)` removes the first occurrence. -/
def ConnectionManager.disconnect (m : ConnectionManager) (ws : Conn) :
    ConnectionManager :=
  ⟨m.active_connections.erase ws⟩

/-- The `for` loop of `ConnectionManager.broadcast` (lines 95-97):
`for connection in self.active_connections: await connection.send_text(message)`.
There is no `try`/`except` around `send_text`, so the first raising
connection aborts the loop and the exception propagates: `.error (c, ds)`
means connection `c` raised after the payload was delivered to the
connections `ds` before it; `.ok ds` means every connection in `ds`
(the whole list) received the payload. -/
def broadcastLoop (msg : String) :
    List Conn → Except (Conn × List Conn) (List Conn)
  | [] => .ok []
  | c :: rest =>
    if c.sendFails then
      .error (c, [])
    else
      match broadcastLoop msg rest with
      | .error (f, ds) => .error (f, c :: ds)
      | .ok ds => .ok (c :: ds)

/-- `ConnectionManager.broadcast` (lines 95-97). The method never touches
`active_connections` (it only iterates over it), so the manager state
after the call is the manager state before it; the second component is
the delivery outcome of the loop. -/
def ConnectionManager.broadcast (m : ConnectionManager) (msg : String) :
    ConnectionManager × Except (Conn × List Conn) (List Conn) :=
  (m, broadcastLoop msg m.active_connections)

/-- The connections to which delivery was attempted during a broadcast:
the successful ones and, on failure, also the connection that raised. -/
def attemptedConns : Except (Conn × List Conn) (List Conn) → List Conn
  | .ok ds => ds
  | .error (f, ds) => ds ++ [f]

/-! ## WebSocket endpoint (backend.py lines 220-228) -/

/-- One outcome of `await websocket.receive_text()` inside the receive
loop: a text frame, a raised `WebSocketDisconnect`, or some other raised
exception. -/
inductive RecvEvent where
  | text (s : String)
  | disconnected
  | otherError
deriving DecidableEq, Repr

/-- How the `websocket_endpoint` coroutine ended. -/
inductive WsExit where
  | handledDisconnect
  | uncaughtException
deriving DecidableEq, Repr

/-- The `try`/`while True` receive loop of `websocket_endpoint`
(lines 223-228), driven by the script of `receive_text` outcomes:

* `.disconnected`: `WebSocketDisconnect` is raised, the sole `except`
  clause runs `manager.disconnect(websocket)`;
* `.otherError`: any other exception from `receive_text` is not caught
  and escapes the handler, leaving the manager untouched;
* `.text s`: the loop body broadcasts `"Client says: " ++ s`; if a
  `send_text` inside the broadcast raises (a write error, not a
  `WebSocketDisconnect` of *this* socket), the exception is likewise
  uncaught and escapes.

`none` means the script ran out while the loop was still blocked in
`receive_text`. -/
def wsLoop (ws : Conn) (m : ConnectionManager) :
    List RecvEvent → Option (ConnectionManager × WsExit)
  | [] => none
  | .disconnected :: _ => some (m.disconnect ws, .handledDisconnect)
  | .otherError :: _ => some (m, .uncaughtException)
  | .text s :: rest =>
    match broadcastLoop ("Client says: " ++ s) m.active_connections with
    | .error _ => some (m, .uncaughtException)
    | .ok _ => wsLoop ws m rest

/-- `websocket_endpoint` (lines 220-228): `await manager.connect(websocket)`
then the receive loop. -/
def websocket_endpoint (ws : Conn) (m : ConnectionManager)
    (events : List RecvEvent) : Option (ConnectionManager × WsExit) :=
  wsLoop ws (m.connect ws) events

/-! ## Request/response payload models (backend.py lines 58-81) -/

/-- `class ItemCreate` (lines 58-60). -/
structure ItemCreate where
  name : String
  description : String
deriving DecidableEq, Repr

/-- `class ItemUpdate` (lines 62-64): both fields optional with default
`None`. `none` here stands for *unset in the request payload*, the case
that `item.dict(exclude_unset=True)` drops. -/
structure ItemUpdate where
  name : Option String
  description : Option String
deriving DecidableEq, Repr

/-- `class UserCreate` (lines 66-67). -/
structure UserCreate where
  name : String
deriving DecidableEq, Repr

/-- `class MessageCreate` (lines 69-71): the creation payload carries only
`sender_id` and `content`; there is no `recipient_id` field. -/
structure MessageCreate where
  sender_id : Nat
  content : String
deriving DecidableEq, Repr

/-- `class MessageResponse` (lines 73-78). -/
structure MessageResponse where
  id : Nat
  sender_id : Nat
  sender_name : String
  content : String
  timestamp : Nat
deriving DecidableEq, Repr

/-! ## Item endpoints (backend.py lines 110-155) -/

/-- `create_item` (lines 110-117): insert a fresh row (SQLite assigns the
id), commit, then `await manager.broadcast("update")` and return the row. -/
def create_item (p : ItemCreate) (db : DB) : OpResult Item :=
  let db_item : Item :=
    ⟨sqliteNextId (db.items.map Item.id), p.name, p.description⟩
  ⟨.ok db_item, { db with items := db.items ++ [db_item] }, ["update"]⟩

/-- `read_items` (lines 126-129):
`db.query(Item).offset(skip).limit(limit).all()` over the rowid-ordered
table. -/
def read_items (skip limit : Nat) (db : DB) : List Item :=
  (db.items.drop skip).take limit

/-- Default of the `skip` query parameter of `read_items` and
`read_users` (lines 127, 179: `skip: int = 0`). -/
def listDefaultSkip : Nat := 0

/-- Default of the `limit` query parameter of `read_items` and
`read_users` (lines 127, 179: `limit: int = 10`). -/
def listDefaultLimit : Nat := 10

/-- Default of the `limit` query parameter of `read_messages`
(line 206: `limit: int = 100`). -/
def messagesDefaultLimit : Nat := 100

/-- Replace the first row whose id matches: `update_item` mutates the row
object returned by `.first()` and commits. -/
def replaceFirstItem (item_id : Nat) (it : Item) : List Item → List Item
  | [] => []
  | x :: xs =>
    if x.id == item_id then it :: xs else x :: replaceFirstItem item_id it xs

/-- `update_item` (lines 131-144): 404 if the row is absent; otherwise
`item.dict(exclude_unset=True)` is applied field by field with `setattr`
(an unset field is left unchanged), the session commits, and
`"update"` is broadcast. -/
def update_item (item_id : Nat) (p : ItemUpdate) (db : DB) : OpResult Item :=
  match db.items.find? (fun it => it.id == item_id) with
  | none => ⟨.error (.notFound "Item not found"), db, []⟩
  | some db_item =>
    let patched : Item :=
      { db_item with
        name := p.name.getD db_item.name
        description := p.description.getD db_item.description }
    ⟨.ok patched,
      { db with items := replaceFirstItem item_id patched db.items },
      ["update"]⟩

/-- `delete_item` (lines 146-155): 404 if absent; otherwise delete the
row, commit, broadcast `"update"`. -/
def delete_item (item_id : Nat) (db : DB) : OpResult String :=
  match db.items.find? (fun it => it.id == item_id) with
  | none => ⟨.error (.notFound "Item not found"), db, []⟩
  | some _ =>
    ⟨.ok "Item deleted successfully",
      { db with items := db.items.eraseP (fun it => it.id == item_id) },
      ["update"]⟩

/-! ## User and message endpoints (backend.py lines 158-217) -/

/-- `create_user` (lines 158-164): insert, commit, return the row.
Note: this handler performs no broadcast. -/
def create_user (p : UserCreate) (db : DB) : OpResult User :=
  let db_user : User := ⟨sqliteNextId (db.users.map User.id), p.name⟩
  ⟨.ok db_user, { db with users := db.users ++ [db_user] }, []⟩

/-- `delete_user` (lines 166-176): 404 if absent; otherwise delete every
message with `sender_id == user_id OR recipient_id == user_id` (SQL
comparison with a NULL `recipient_id` is not a match), delete the user
row, and only then issue the single `db.commit()` — both deletions land
in one transaction — then broadcast `"user_deleted"`. -/
def delete_user (user_id : Nat) (db : DB) : OpResult String :=
  match db.users.find? (fun u => u.id == user_id) with
  | none => ⟨.error (.notFound "User not found"), db, []⟩
  | some _ =>
    ⟨.ok "User deleted successfully",
      { db with
        messages := db.messages.filter
          (fun msg => !(msg.sender_id == user_id
                        || msg.recipient_id == some user_id))
        users := db.users.eraseP (fun u => u.id == user_id) },
      ["user_deleted"]⟩

/-- `read_users` (lines 178-181). -/
def read_users (skip limit : Nat) (db : DB) : List User :=
  (db.users.drop skip).take limit

/-- `create_message` (lines 183-203): look up the sender; raise 404
before anything is written if the sender does not exist (session closes
uncommitted, no broadcast); otherwise insert a row built from only
`sender_id` and `content` — `recipient_id` is never set and stays NULL,
`timestamp` defaults to the current time `now` — commit, build the
response with the sender's name, broadcast `"update"`. -/
def create_message (p : MessageCreate) (now : Nat) (db : DB) :
    OpResult MessageResponse :=
  match db.users.find? (fun u => u.id == p.sender_id) with
  | none => ⟨.error (.notFound "Sender not found"), db, []⟩
  | some sender =>
    let db_message : Message :=
      ⟨sqliteNextId (db.messages.map Message.id), p.sender_id, none,
        p.content, now⟩
    ⟨.ok ⟨db_message.id, db_message.sender_id, sender.name,
          db_message.content, db_message.timestamp⟩,
      { db with messages := db.messages ++ [db_message] },
      ["update"]⟩

/-- Stable insertion into a timestamp-sorted list: the new element goes
after every element whose `timestamp` is `≤` its own. Together with
`sortByTimestamp` this models the `ORDER BY messages.timestamp` of
`read_messages`: SQLite scans the table in rowid order and sorts by the
key, rows with equal keys staying in scan order. -/
def insertByTimestamp (msg : Message) : List Message → List Message
  | [] => [msg]
  | x :: xs =>
    if x.timestamp ≤ msg.timestamp then x :: insertByTimestamp msg xs
    else msg :: x :: xs

/-- `db.query(Message).order_by(Message.timestamp)` (line 207) as a
stable sort of the rowid-ordered table. -/
def sortByTimestamp (msgs : List Message) : List Message :=
  msgs.foldl (fun acc msg => insertByTimestamp msg acc) []

/-- The rows produced by the query of `read_messages` (lines 205-207):
ordered by timestamp, then `offset(skip).limit(limit)`. -/
def read_messages_rows (skip limit : Nat) (db : DB) : List Message :=
  ((sortByTimestamp db.messages).drop skip).take limit

/-- `read_messages` (lines 205-217): each row is joined with its sender's
name via the `Message.sender` relationship (`message.sender.name`); a
dangling `sender_id` would make that attribute access crash, which we
model as `none` for the affected row. -/
def read_messages (skip limit : Nat) (db : DB) :
    List (Option MessageResponse) :=
  (read_messages_rows skip limit db).map (fun msg =>
    match db.users.find? (fun u => u.id == msg.sender_id) with
    | some u =>
      some ⟨msg.id, msg.sender_id, u.name, msg.content, msg.timestamp⟩
    | none => none)

/-! ## Reachable API states -/

/-- One call to a mutating endpoint of the public API. -/
inductive ApiOp where
  | createItem (p : ItemCreate)
  | updateItem (item_id : Nat) (p : ItemUpdate)
  | deleteItem (item_id : Nat)
  | createUser (p : UserCreate)
  | deleteUser (user_id : Nat)
  | createMessage (p : MessageCreate) (now : Nat)
deriving DecidableEq, Repr

/-- The database state after one endpoint call (whether it succeeded or
raised). -/
def applyOp (op : ApiOp) (db : DB) : DB :=
  match op with
  | .createItem p => (create_item p db).db
  | .updateItem i p => (update_item i p db).db
  | .deleteItem i => (delete_item i db).db
  | .createUser p => (create_user p db).db
  | .deleteUser i => (delete_user i db).db
  | .createMessage p now => (create_message p now db).db

/-- The database state reached from the fresh database by a sequence of
endpoint calls. -/
def runOps (ops : List ApiOp) : DB :=
  ops.foldl (fun db op => applyOp op db) emptyDB

/-! ## Handler step traces

Each successful mutating handler is an `async def` whose body is a plain
sequence of statements; `await e` runs `e` to completion before the next
statement executes. For claims about the ordering of commit, broadcast
and response we record that sequence of steps explicitly. -/

/-- A step of a request handler's (successful-path) body. -/
inductive HandlerStep where
  | storeCommit
  | broadcastAwaited
  | returnResponse
deriving DecidableEq, Repr

/-- Successful path of `create_item` (lines 110-117): `db.commit()`;
`await manager.broadcast("update")`; `return db_item`. -/
def create_item_steps : List HandlerStep :=
  [.storeCommit, .broadcastAwaited, .returnResponse]

/-- Successful path of `update_item` (lines 131-144): `db.commit()`;
`await manager.broadcast("update")`; `return db_item`. -/
def update_item_steps : List HandlerStep :=
  [.storeCommit, .broadcastAwaited, .returnResponse]

/-- Successful path of `delete_item` (lines 146-155). -/
def delete_item_steps : List HandlerStep :=
  [.storeCommit, .broadcastAwaited, .returnResponse]

/-- Successful path of `delete_user` (lines 166-176). -/
def delete_user_steps : List HandlerStep :=
  [.storeCommit, .broadcastAwaited, .returnResponse]

/-- Successful path of `create_message` (lines 183-203). -/
def create_message_steps : List HandlerStep :=
  [.storeCommit, .broadcastAwaited, .returnResponse]

/-- Whether a handler trace awaits broadcast completion before the
response is returned: `broadcastAwaited` occurs among the steps executed
strictly before `returnResponse`. -/
def awaitsBroadcastBeforeResponding (steps : List HandlerStep) : Bool :=
  (steps.takeWhile (fun s => s != HandlerStep.returnResponse)).contains
    HandlerStep.broadcastAwaited

/-! ## Helper lemmas -/

/-- Every member of a list of naturals is bounded by the `foldr max 0`. -/
theorem mem_le_foldr_max {n : Nat} :
    ∀ {l : List Nat}, n ∈ l → n ≤ l.foldr max 0 := by
  intro l hl
  induction l with
  | nil => cases hl
  | cons a l ih =>
    rcases List.mem_cons.mp hl with h | h
    · exact h ▸ Nat.le_max_left a (l.foldr max 0)
    · exact Nat.le_trans (ih h) (Nat.le_max_right a (l.foldr max 0))

/-- The delivery loop of `broadcast` delivers to the whole registry when
no connection fails, and otherwise aborts at the first failing
connection, having delivered only to the prefix before it. -/
theorem broadcastLoop_spec (msg : String) (l : List Conn) :
    (l.find? (fun c => c.sendFails) = none → broadcastLoop msg l = .ok l) ∧
    (∀ f, l.find? (fun c => c.sendFails) = some f →
      broadcastLoop msg l =
        .error (f, l.takeWhile (fun c => !c.sendFails))) := by
  induction l with
  | nil => exact ⟨fun _ => rfl, fun f h => by simp [List.find?] at h⟩
  | cons c rest ih =>
    by_cases hc : c.sendFails
    · refine ⟨fun h => ?_, fun f h => ?_⟩
      · simp [List.find?_cons, hc] at h
      · simp only [List.find?_cons, hc] at h
        simp only [Option.some.injEq] at h
        subst h
        simp [broadcastLoop, hc, List.takeWhile_cons]
    · have hcb : c.sendFails = false := by simpa using hc
      refine ⟨fun h => ?_, fun f h => ?_⟩
      · simp only [List.find?_cons, hcb] at h
        simp [broadcastLoop, hcb, ih.1 h]
      · simp only [List.find?_cons, hcb] at h
        simp [broadcastLoop, hcb, ih.2 f h, List.takeWhile_cons]

/-- The receive loop never alters the manager while it runs; it removes
the socket exactly when it exits through the `except WebSocketDisconnect`
clause, and leaves the manager untouched when an exception escapes. -/
theorem wsLoop_spec (ws : Conn) (m : ConnectionManager) :
    ∀ (events : List RecvEvent) (mOut : ConnectionManager) (ex : WsExit),
      wsLoop ws m events = some (mOut, ex) →
      (ex = .handledDisconnect → mOut = m.disconnect ws) ∧
      (ex = .uncaughtException → mOut = m) := by
  intro events
  induction events with
  | nil => intro mOut ex h; simp [wsLoop] at h
  | cons e rest ih =>
    intro mOut ex h
    cases e with
    | disconnected =>
      simp only [wsLoop, Option.some.injEq, Prod.mk.injEq] at h
      exact ⟨fun _ => h.1.symm, fun hx => by simp [← h.2] at hx⟩
    | otherError =>
      simp only [wsLoop, Option.some.injEq, Prod.mk.injEq] at h
      exact ⟨fun hx => by simp [← h.2] at hx, fun _ => h.1.symm⟩
    | text s =>
      simp only [wsLoop] at h
      cases hb : broadcastLoop ("Client says: " ++ s) m.active_connections with
      | error f =>
        rw [hb] at h
        simp only [Option.some.injEq, Prod.mk.injEq] at h
        exact ⟨fun hx => by simp [← h.2] at hx, fun _ => h.1.symm⟩
      | ok ds =>
        rw [hb] at h
        exact ih mOut ex h

/-! ## Claim theorems -/

/-- **C1, counterexample.** With registry `[c0 (failing), c1 (healthy)]`,
a broadcast does *not* behave as claimed: it is false that the failing
observer `c0` is removed from the registry while delivery is still
attempted to the other observer `c1`. (`broadcast` has no error
handling: the first `send_text` failure propagates, aborting the loop
with the registry untouched.) -/
theorem broadcast_failure_isolation_counterexample :
    ¬ ((Conn.mk 0 true) ∉
         ((ConnectionManager.mk [⟨0, true⟩, ⟨1, false⟩]).broadcast
           "update").1.active_connections
       ∧ (Conn.mk 1 false) ∈
           attemptedConns
             (((ConnectionManager.mk [⟨0, true⟩, ⟨1, false⟩]).broadcast
               "update").2)) := by
  decide

/-- **C1, amended.** `ConnectionManager.broadcast` leaves the registry
unchanged (no observer is ever unregistered by a broadcast); when no
registered connection fails it delivers to every observer in registry
order, and when some connection fails it aborts at the *first* failing
observer, having delivered only to the observers before it — later
observers get no delivery attempt. -/
theorem broadcast_aborts_at_first_failure (m : ConnectionManager)
    (msg : String) :
    (m.broadcast msg).1 = m ∧
    (m.active_connections.find? (fun c => c.sendFails) = none →
      (m.broadcast msg).2 = .ok m.active_connections) ∧
    (∀ f, m.active_connections.find? (fun c => c.sendFails) = some f →
      (m.broadcast msg).2 =
        .error (f, m.active_connections.takeWhile (fun c => !c.sendFails))) :=
  ⟨rfl, (broadcastLoop_spec msg m.active_connections).1,
    (broadcastLoop_spec msg m.active_connections).2⟩

/-- Witness for `broadcast_aborts_at_first_failure` at the registry
`[c0 (healthy), c1 (failing), c2 (healthy)]`: the broadcast aborts at
`c1` having delivered only to `c0`. -/
theorem broadcast_aborts_at_first_failure_witness :
    ((ConnectionManager.mk [⟨0, false⟩, ⟨1, true⟩, ⟨2, false⟩]).broadcast
      "update").2 = .error (⟨1, true⟩, [⟨0, false⟩]) := by
  rw [(broadcast_aborts_at_first_failure
    (ConnectionManager.mk [⟨0, false⟩, ⟨1, true⟩, ⟨2, false⟩])
    "update").2.2 ⟨1, true⟩ (by decide)]
  rfl

/-- **C2, counterexample.** A connection whose receive loop terminates
by an uncaught broadcast-delivery failure stays in the registry: with a
failing observer `c0` already registered, socket `c1` connects, relays
one text frame, the broadcast raises on `c0`, the exception escapes
`websocket_endpoint` (only `WebSocketDisconnect` is caught) — and the
terminated `c1` is still registered. -/
theorem websocket_cleanup_counterexample :
    websocket_endpoint ⟨1, false⟩ ⟨[⟨0, true⟩]⟩ [.text "hi"]
      = some (⟨[⟨0, true⟩, ⟨1, false⟩]⟩, .uncaughtException)
    ∧ (Conn.mk 1 false) ∈
        (ConnectionManager.mk [⟨0, true⟩, ⟨1, false⟩]).active_connections := by
  exact ⟨rfl, by decide⟩

/-- **C2, amended.** Registration does happen on connect, but
unregistration happens only on the normal-close exit path (the
`except WebSocketDisconnect` clause): when any other exception —
including a broadcast-delivery failure inside the loop — ends the
coroutine, the socket remains registered. -/
theorem websocket_unregisters_only_on_disconnect (ws : Conn)
    (m : ConnectionManager) (events : List RecvEvent)
    (mOut : ConnectionManager) (ex : WsExit)
    (h : websocket_endpoint ws m events = some (mOut, ex)) :
    (ex = .handledDisconnect → mOut = (m.connect ws).disconnect ws) ∧
    (ex = .uncaughtException →
      mOut = m.connect ws ∧ ws ∈ mOut.active_connections) := by
  have hs := wsLoop_spec ws (m.connect ws) events mOut ex h
  refine ⟨hs.1, fun hx => ⟨hs.2 hx, ?_⟩⟩
  rw [hs.2 hx]
  exact List.mem_append_right _ (List.mem_singleton.mpr rfl)

/-- Witness for `websocket_unregisters_only_on_disconnect`: a socket that
connects to an empty registry and immediately disconnects is removed. -/
theorem websocket_unregisters_only_on_disconnect_witness :
    (ConnectionManager.mk []) =
      ((ConnectionManager.mk []).connect ⟨1, false⟩).disconnect ⟨1, false⟩ :=
  ((websocket_unregisters_only_on_disconnect ⟨1, false⟩ ⟨[]⟩ [.disconnected]
    ⟨[]⟩ .handledDisconnect (by decide)).1 rfl)

/-- **C3.** Deleting user `U` (when user ids are unique, as the primary
key guarantees) is one failure-atomic transition: on success the single
committed post-state simultaneously contains no message with
`sender_id = U` or `recipient_id = U` and no user row with id `U`;
when the user does not exist the call raises 404 and the state is
completely unchanged with no broadcast. -/
theorem delete_user_cascade_atomic (user_id : Nat) (db : DB)
    (hids : (db.users.map User.id).Nodup) :
    (∀ u0, db.users.find? (fun u => u.id == user_id) = some u0 →
      (delete_user user_id db).result = .ok "User deleted successfully" ∧
      (∀ msg ∈ (delete_user user_id db).db.messages,
        msg.sender_id ≠ user_id ∧ msg.recipient_id ≠ some user_id) ∧
      (∀ u ∈ (delete_user user_id db).db.users, u.id ≠ user_id)) ∧
    (db.users.find? (fun u => u.id == user_id) = none →
      delete_user user_id db = ⟨.error (.notFound "User not found"), db, []⟩) := by
  constructor
  · intro u0 hfind
    have hmem : u0 ∈ db.users := List.mem_of_find?_eq_some hfind
    have hp : (u0.id == user_id) = true :=
      List.find?_some (p := fun u : User => u.id == user_id) hfind
    refine ⟨by simp [delete_user, hfind], ?_, ?_⟩
    · intro msg hmsg
      simp only [delete_user, hfind] at hmsg
      have hpred := (List.mem_filter.mp hmsg).2
      simp only [Bool.not_eq_eq_eq_not, Bool.not_true, Bool.or_eq_false_iff,
        beq_eq_false_iff_ne, ne_eq] at hpred
      exact hpred
    · intro u hu
      simp only [delete_user, hfind] at hu
      obtain ⟨a, l₁, l₂, h₁, h₂, h₃, h₄⟩ :=
        List.exists_of_eraseP (p := fun u : User => u.id == user_id) hmem hp
      rw [h₄] at hu
      rcases List.mem_append.mp hu with h | h
      · intro hEq
        exact h₁ u h (by simp [hEq])
      · intro hEq
        have ha : a.id = user_id := by simpa using h₂
        have hnod : ((l₁ ++ a :: l₂).map User.id).Nodup := h₃ ▸ hids
        rw [List.map_append] at hnod
        have hnod2 : ((a :: l₂).map User.id).Nodup := hnod.of_append_right
        simp only [List.map_cons] at hnod2
        have hnota : a.id ∉ l₂.map User.id := (List.nodup_cons.mp hnod2).1
        have humem : u.id ∈ l₂.map User.id := List.mem_map_of_mem User.id h
        rw [hEq, ← ha] at humem
        exact hnota humem
  · intro h
    simp [delete_user, h]

/-- Witness for `delete_user_cascade_atomic`: deleting user 1 from a
database holding user 1 and one message sent by them succeeds. -/
theorem delete_user_cascade_atomic_witness :
    (delete_user 1 ⟨[], [⟨1, "A"⟩], [⟨1, 1, none, "hi", 0⟩]⟩).result
      = .ok "User deleted successfully" :=
  (((delete_user_cascade_atomic 1 ⟨[], [⟨1, "A"⟩], [⟨1, 1, none, "hi", 0⟩]⟩
    (by decide)).1) ⟨1, "A"⟩ (by decide)).1

/-- **C4.** Creating a message whose `sender_id` matches no existing user
raises 404 (`"Sender not found"`) before anything is written: the
database is returned unchanged and no broadcast payload is sent. -/
theorem create_message_invalid_sender (p : MessageCreate) (now : Nat)
    (db : DB) (h : ∀ u ∈ db.users, u.id ≠ p.sender_id) :
    create_message p now db = ⟨.error (.notFound "Sender not found"), db, []⟩ := by
  have hfind : db.users.find? (fun u => u.id == p.sender_id) = none :=
    List.find?_eq_none.mpr (fun u hu => by simpa using h u hu)
  simp [create_message, hfind]

/-- Witness for `create_message_invalid_sender`: sender 5 does not exist
in the empty database. -/
theorem create_message_invalid_sender_witness :
    create_message ⟨5, "hi"⟩ 0 emptyDB
      = ⟨.error (.notFound "Sender not found"), emptyDB, []⟩ :=
  create_message_invalid_sender ⟨5, "hi"⟩ 0 emptyDB (by decide)

/-- Members of `replaceFirstItem item_id it l` are `it` or members of
`l`. -/
theorem mem_replaceFirstItem {item_id : Nat} {it : Item} :
    ∀ {l : List Item} {j : Item}, j ∈ replaceFirstItem item_id it l →
      j = it ∨ j ∈ l := by
  intro l
  induction l with
  | nil => intro j hj; cases hj
  | cons x xs ih =>
    intro j hj
    by_cases hx : (x.id == item_id) = true
    · simp only [replaceFirstItem, hx, if_true] at hj
      rcases List.mem_cons.mp hj with h | h
      · exact Or.inl h
      · exact Or.inr (List.mem_cons_of_mem _ h)
    · simp only [replaceFirstItem, hx, if_false] at hj
      rcases List.mem_cons.mp hj with h | h
      · exact Or.inr (h ▸ List.mem_cons_self x xs)
      · rcases ih h with h2 | h2
        · exact Or.inl h2
        · exact Or.inr (List.mem_cons_of_mem _ h2)

/-- **C5.** `update_item` is a partial patch: on an existing item it
succeeds, the id is preserved, every field that is unset in the payload
keeps its prior value, every field that is present takes the payload
value, rows with a different id are untouched, and `"update"` is
broadcast. In particular a payload of only `{name: "X"}` leaves
`description` unchanged. -/
theorem update_item_partial_patch (item_id : Nat) (p : ItemUpdate) (db : DB)
    (it0 : Item)
    (hfind : db.items.find? (fun it => it.id == item_id) = some it0) :
    (∃ it1, (update_item item_id p db).result = .ok it1 ∧
      it1.id = it0.id ∧
      (p.name = none → it1.name = it0.name) ∧
      (p.description = none → it1.description = it0.description) ∧
      (∀ s, p.name = some s → it1.name = s) ∧
      (∀ s, p.description = some s → it1.description = s)) ∧
    (∀ j ∈ (update_item item_id p db).db.items,
      j.id ≠ item_id → j ∈ db.items) ∧
    (update_item item_id p db).broadcasts = ["update"] := by
  have hid0 : it0.id = item_id := by
    simpa using List.find?_some (p := fun it : Item => it.id == item_id) hfind
  refine ⟨⟨{ it0 with
             name := p.name.getD it0.name
             description := p.description.getD it0.description },
          ?_, rfl, ?_, ?_, ?_, ?_⟩, ?_, ?_⟩
  · simp [update_item, hfind]
  · intro hn; simp [hn]
  · intro hd; simp [hd]
  · intro s hn; simp [hn]
  · intro s hd; simp [hd]
  · intro j hj hne
    simp only [update_item, hfind] at hj
    rcases mem_replaceFirstItem hj with h | h
    · exact absurd (h ▸ hid0 : j.id = item_id) hne
    · exact h
  · simp [update_item, hfind]

/-- Witness for `update_item_partial_patch`: patching item 1 of a
one-item database with `{name: "X"}`. -/
theorem update_item_partial_patch_witness :
    (update_item 1 ⟨some "X", none⟩ ⟨[⟨1, "old", "desc"⟩], [], []⟩).broadcasts
      = ["update"] :=
  (update_item_partial_patch 1 ⟨some "X", none⟩ ⟨[⟨1, "old", "desc"⟩], [], []⟩
    ⟨1, "old", "desc"⟩ (by decide)).2.2

/-- **C6, counterexample.** The `create_item` handler is *not*
fire-and-forget: it is false that its trace reaches `returnResponse`
without first awaiting broadcast completion — the body is
`db.commit(); await manager.broadcast("update"); return db_item`, and
`await` runs the broadcast to completion before the return executes. -/
theorem fire_and_forget_counterexample :
    ¬ (awaitsBroadcastBeforeResponding create_item_steps = false) := by
  decide

/-- **C6, amended.** Every successful mutating handler (`create_item`,
`update_item`, `delete_item`, `delete_user`, `create_message`) awaits
broadcast completion *before* returning its response: the broadcast is
synchronous with, not detached from, the HTTP response. -/
theorem handlers_await_broadcast_before_response :
    awaitsBroadcastBeforeResponding create_item_steps = true ∧
    awaitsBroadcastBeforeResponding update_item_steps = true ∧
    awaitsBroadcastBeforeResponding delete_item_steps = true ∧
    awaitsBroadcastBeforeResponding delete_user_steps = true ∧
    awaitsBroadcastBeforeResponding create_message_steps = true := by
  decide

/-- **C7, counterexample.** Item ids *are* reused after deletion: create
an item (it gets id 1), delete it, create another — the second item gets
id 1 again, because the SQLite rowid of a fresh row is one more than the
largest rowid currently in use, not a never-decreasing counter. -/
theorem id_reuse_counterexample :
    (create_item ⟨"a", "x"⟩ emptyDB).result = .ok ⟨1, "a", "x"⟩ ∧
    (create_item ⟨"b", "y"⟩
      (delete_item 1 (create_item ⟨"a", "x"⟩ emptyDB).db).db).result
      = .ok ⟨1, "b", "y"⟩ :=
  ⟨rfl, rfl⟩

/-- **C7, amended.** A freshly assigned item id is strictly greater than
the id of every row alive at creation time — so live ids stay unique and
consecutive creations without an intervening delete produce increasing
ids — but ids of *deleted* rows can be assigned again (see
`id_reuse_counterexample`). -/
theorem create_item_id_exceeds_live_ids (db : DB) (p : ItemCreate)
    (it : Item) (hit : it ∈ db.items) :
    ∀ it1 ∈ (create_item p db).db.items, it1 ∉ db.items → it.id < it1.id := by
  intro it1 h1 hnot
  have hsplit : it1 ∈ db.items ∨
      it1 = (⟨sqliteNextId (db.items.map Item.id), p.name, p.description⟩ : Item) := by
    simpa [create_item] using h1
  rcases hsplit with h | h
  · exact absurd h hnot
  · rw [h]
    have hle : it.id ≤ (db.items.map Item.id).foldr max 0 :=
      mem_le_foldr_max (List.mem_map_of_mem Item.id hit)
    exact Nat.lt_succ_of_le hle

/-- Witness for `create_item_id_exceeds_live_ids`: creating into a
database whose only item has id 1 assigns id 2. -/
theorem create_item_id_exceeds_live_ids_witness :
    (Item.mk 1 "a" "x").id < (Item.mk 2 "b" "y").id :=
  create_item_id_exceeds_live_ids ⟨[⟨1, "a", "x"⟩], [], []⟩ ⟨"b", "y"⟩
    ⟨1, "a", "x"⟩ (by decide) ⟨2, "b", "y"⟩ (by decide) (by decide)

/-- **C9.** Pagination of the item list: with `skip=0` and `limit` equal
to the number of stored items the whole table is returned in insertion
(creation) order; any `skip` at or past the end — in particular
`skip = N` — yields the empty sequence rather than an error; and the
defaults of the query parameters are `skip=0`, `limit=10` for
items/users and `limit=100` for messages. -/
theorem read_items_pagination (db : DB) :
    read_items 0 db.items.length db = db.items ∧
    (∀ skip limit, db.items.length ≤ skip → read_items skip limit db = []) ∧
    (listDefaultSkip = 0 ∧ listDefaultLimit = 10 ∧
      messagesDefaultLimit = 100) := by
  refine ⟨?_, ?_, rfl, rfl, rfl⟩
  · simp [read_items]
  · intro skip limit h
    simp [read_items, List.drop_eq_nil_iff.mpr h]

/-- Witness for `read_items_pagination`: with one stored item, `skip=1`
returns the empty list. -/
theorem read_items_pagination_witness :
    read_items 1 3 ⟨[⟨1, "a", "x"⟩], [], []⟩ = [] :=
  (read_items_pagination ⟨[⟨1, "a", "x"⟩], [], []⟩).2.1 1 3 (by decide)

/-- Every message ever stored by a run of the public API has
`recipient_id = none`: single preservation step. -/
theorem applyOp_no_recipient (op : ApiOp) (db : DB)
    (h : ∀ msg ∈ db.messages, msg.recipient_id = none) :
    ∀ msg ∈ (applyOp op db).messages, msg.recipient_id = none := by
  intro msg hmsg
  cases op with
  | createItem p => exact h msg hmsg
  | updateItem i p =>
    apply h msg
    simp only [applyOp, update_item] at hmsg
    cases hfind : db.items.find? (fun it => it.id == i) with
    | none => rw [hfind] at hmsg; exact hmsg
    | some it0 => rw [hfind] at hmsg; exact hmsg
  | deleteItem i =>
    apply h msg
    simp only [applyOp, delete_item] at hmsg
    cases hfind : db.items.find? (fun it => it.id == i) with
    | none => rw [hfind] at hmsg; exact hmsg
    | some it0 => rw [hfind] at hmsg; exact hmsg
  | createUser p => exact h msg hmsg
  | deleteUser i =>
    simp only [applyOp, delete_user] at hmsg
    cases hfind : db.users.find? (fun u => u.id == i) with
    | none => rw [hfind] at hmsg; exact h msg hmsg
    | some u0 =>
      rw [hfind] at hmsg
      exact h msg (List.mem_filter.mp hmsg).1
  | createMessage p now =>
    simp only [applyOp, create_message] at hmsg
    cases hfind : db.users.find? (fun u => u.id == p.sender_id) with
    | none => rw [hfind] at hmsg; exact h msg hmsg
    | some sender =>
      rw [hfind] at hmsg
      rcases List.mem_append.mp hmsg with hm | hm
      · exact h msg hm
      · rw [List.mem_singleton.mp hm]

/-- **C10.** In every database state reachable through the public API
from the fresh database, every stored message has `recipient_id = none`
(the creation payload has no `recipient_id` field and `create_message`
never sets one); consequently the message set deleted by the user-delete
cascade (`sender_id == U OR recipient_id == U`) coincides with the set
matched by the `sender_id == U` clause alone. -/
theorem api_messages_no_recipient (ops : List ApiOp) :
    (∀ msg ∈ (runOps ops).messages, msg.recipient_id = none) ∧
    (∀ user_id : Nat,
      (runOps ops).messages.filter
        (fun msg => msg.sender_id == user_id
                    || msg.recipient_id == some user_id)
      = (runOps ops).messages.filter
          (fun msg => msg.sender_id == user_id)) := by
  have hinv : ∀ msg ∈ (runOps ops).messages, msg.recipient_id = none := by
    have hgen : ∀ (l : List ApiOp) (db : DB),
        (∀ msg ∈ db.messages, msg.recipient_id = none) →
        ∀ msg ∈ (l.foldl (fun db op => applyOp op db) db).messages,
          msg.recipient_id = none := by
      intro l
      induction l with
      | nil => intro db h; exact h
      | cons op rest ih =>
        intro db h
        exact ih (applyOp op db) (applyOp_no_recipient op db h)
    exact hgen ops emptyDB (by intro msg hmsg; cases hmsg)
  refine ⟨hinv, fun user_id => ?_⟩
  apply List.filter_congr
  intro msg hmsg
  rw [hinv msg hmsg]
  simp

/-- Witness for `api_messages_no_recipient`: after creating user 1 and
one message from them, the stored message has no recipient. -/
theorem api_messages_no_recipient_witness :
    (Message.mk 1 1 none "hi" 5).recipient_id = none :=
  (api_messages_no_recipient
    [.createUser ⟨"A"⟩, .createMessage ⟨1, "hi"⟩ 5]).1
    ⟨1, 1, none, "hi", 5⟩ (by decide)

/-- The retrieval order claimed for message history: strictly earlier
timestamp first, ties between equal timestamps broken by the
server-assigned id (insertion order). -/
def msgLex (a b : Message) : Prop :=
  a.timestamp < b.timestamp ∨ (a.timestamp = b.timestamp ∧ a.id < b.id)

/-- `insertByTimestamp` produces a permutation of consing the element. -/
theorem insertByTimestamp_perm (msg : Message) (l : List Message) :
    (insertByTimestamp msg l).Perm (msg :: l) := by
  induction l with
  | nil => exact List.Perm.refl _
  | cons x xs ih =>
    by_cases hx : x.timestamp ≤ msg.timestamp
    · simp only [insertByTimestamp, if_pos hx]
      exact (ih.cons x).trans (List.Perm.swap msg x xs)
    · simp only [insertByTimestamp, if_neg hx]
      exact List.Perm.refl _

/-- Stable insertion preserves `msgLex`-sortedness when the inserted
element carries a strictly larger id than everything already present
(which is how the table is scanned: ids in insertion order). -/
theorem insertByTimestamp_pairwise (msg : Message) (l : List Message)
    (hl : l.Pairwise msgLex) (hid : ∀ x ∈ l, x.id < msg.id) :
    (insertByTimestamp msg l).Pairwise msgLex := by
  induction l with
  | nil => exact List.pairwise_singleton msgLex msg
  | cons x xs ih =>
    have hx' := List.pairwise_cons.mp hl
    by_cases hx : x.timestamp ≤ msg.timestamp
    · simp only [insertByTimestamp, if_pos hx]
      apply List.pairwise_cons.mpr
      constructor
      · intro y hy
        rcases List.mem_cons.mp ((insertByTimestamp_perm msg xs).mem_iff.mp hy)
          with h | h
        · rw [h]
          rcases Nat.lt_or_ge x.timestamp msg.timestamp with hlt | hge
          · exact Or.inl hlt
          · exact Or.inr ⟨Nat.le_antisymm hx hge,
              hid x (List.mem_cons_self x xs)⟩
        · exact hx'.1 y h
      · exact ih hx'.2 (fun z hz => hid z (List.mem_cons_of_mem x hz))
    · simp only [insertByTimestamp, if_neg hx]
      apply List.pairwise_cons.mpr
      refine ⟨?_, hl⟩
      intro y hy
      rcases List.mem_cons.mp hy with h | h
      · subst h; exact Or.inl (Nat.not_le.mp hx)
      · have hxy := hx'.1 y h
        have hxts : x.timestamp ≤ y.timestamp := by
          rcases hxy with h1 | h1
          · exact Nat.le_of_lt h1
          · exact Nat.le_of_eq h1.1
        exact Or.inl (Nat.lt_of_lt_of_le (Nat.not_le.mp hx) hxts)

/-- Folding stable insertion over a scan whose ids strictly increase
yields a `msgLex`-sorted permutation of the accumulator and the scan. -/
theorem sortByTimestamp_aux :
    ∀ (l acc : List Message),
      acc.Pairwise msgLex →
      (∀ x ∈ acc, ∀ y ∈ l, x.id < y.id) →
      l.Pairwise (fun a b => a.id < b.id) →
      (l.foldl (fun a m => insertByTimestamp m a) acc).Pairwise msgLex ∧
      (l.foldl (fun a m => insertByTimestamp m a) acc).Perm (acc ++ l) := by
  intro l
  induction l with
  | nil => intro acc h _ _; exact ⟨h, by simp⟩
  | cons m rest ih =>
    intro acc hacc hrel hl
    have hid : ∀ x ∈ acc, x.id < m.id :=
      fun x hx => hrel x hx m (List.mem_cons_self m rest)
    have hins : (insertByTimestamp m acc).Pairwise msgLex :=
      insertByTimestamp_pairwise m acc hacc hid
    have hpm := insertByTimestamp_perm m acc
    have hrel2 : ∀ x ∈ insertByTimestamp m acc, ∀ y ∈ rest, x.id < y.id := by
      intro x hx y hy
      rcases List.mem_cons.mp (hpm.mem_iff.mp hx) with h | h
      · subst h; exact (List.pairwise_cons.mp hl).1 y hy
      · exact hrel x h y (List.mem_cons_of_mem m hy)
    obtain ⟨hp1, hp2⟩ :=
      ih (insertByTimestamp m acc) hins hrel2 (List.pairwise_cons.mp hl).2
    exact ⟨hp1,
      hp2.trans ((hpm.append_right rest).trans List.perm_middle.symm)⟩

/-- **C8.** When the stored message ids strictly increase in table-scan
(insertion) order — which holds for every state the server builds, since
each new id exceeds all live ids — `read_messages` returns a sequence
sorted by timestamp ascending, ties between equal timestamps resolved by
insertion order (smaller id first), and the underlying sort loses or
duplicates no row (it is a permutation of the table). -/
theorem read_messages_sorted_stable (skip limit : Nat) (db : DB)
    (hins : db.messages.Pairwise (fun a b => a.id < b.id)) :
    (sortByTimestamp db.messages).Perm db.messages ∧
    (read_messages_rows skip limit db).Pairwise msgLex := by
  obtain ⟨hp, hperm⟩ := sortByTimestamp_aux db.messages [] List.Pairwise.nil
    (by intro x hx; cases hx) hins
  refine ⟨by simpa using hperm, ?_⟩
  exact List.Pairwise.sublist
    ((List.take_sublist _ _).trans (List.drop_sublist _ _)) hp

/-- Witness for `read_messages_sorted_stable` on a table with a
timestamp tie (rows 1 and 3 share timestamp 10): the sort is a
permutation of the table. -/
theorem read_messages_sorted_stable_witness :
    (sortByTimestamp [⟨1, 1, none, "a", 10⟩, ⟨2, 1, none, "b", 5⟩,
        ⟨3, 1, none, "c", 10⟩]).Perm
      [⟨1, 1, none, "a", 10⟩, ⟨2, 1, none, "b", 5⟩,
        ⟨3, 1, none, "c", 10⟩] :=
  (read_messages_sorted_stable 0 100
    ⟨[], [],
      [⟨1, 1, none, "a", 10⟩, ⟨2, 1, none, "b", 5⟩, ⟨3, 1, none, "c", 10⟩]⟩
    (by decide)).1
